import Mathlib

/-!
Shallow embedding of the campaign-manager storage layer and its operations.

The database is modelled as three lists of rows mirroring the tables
`campaign_specs`, `notes_history` and `spec_versions` created in
`app/db_utils.py`.  Timestamps are abstract `Nat` values supplied by the
caller (`CURRENT_TIMESTAMP` becomes a `now` parameter), and serial ids are
likewise supplied (`newId`).  Each write operation carries a `dbFails`
oracle: `true` means the database transaction raised at some point, in
which case the source's `except` branch runs — nothing commits and the
operation reports failure.  This reflects that each source operation wraps
its statements in a single `with conn.session` block with one `commit()`.
-/

namespace CampaignManager

/-- A row of `campaign_specs` (schema in `create_campaign_specs_table`). -/
structure Campaign where
  id : Nat
  name : String
  client : String
  status : String
  payment_model : Option String
  cpa : Option Int
  pdf_filename : Option String
  notes : Option String
  spec_url : Option String
  last_updated : Nat
  deriving Repr, DecidableEq

/-- A row of `notes_history` (schema in `create_notes_history_table`). -/
structure NotesRow where
  id : Nat
  campaign_id : Nat
  notes : String
  edited_by : String
  edited_at : Nat
  deriving Repr, DecidableEq

/-- A row of `spec_versions` (schema in `create_spec_versions_table`). -/
structure VersionRow where
  id : Nat
  campaign_id : Nat
  version : Nat
  filename : String
  uploaded_by : String
  uploaded_at : Nat
  deriving Repr, DecidableEq

/-- The whole database: the three tables. -/
structure DB where
  campaign_specs : List Campaign
  notes_history : List NotesRow
  spec_versions : List VersionRow
  deriving Repr, DecidableEq

/-- The `version` values of the `spec_versions` rows of one campaign
(`SELECT ... FROM spec_versions WHERE campaign_id = :campaign_id`). -/
def versionsOf (db : DB) (cid : Nat) : List Nat :=
  (db.spec_versions.filter (fun v => v.campaign_id == cid)).map (fun v => v.version)

/-- `get_next_version` (app/spec_utils.py): `SELECT MAX(version) ... WHERE
campaign_id = :campaign_id`; `current_version = result.iloc[0,0] or 0`;
returns `current_version + 1`.  SQL `MAX` over no rows is NULL, which the
`or 0` turns into 0; the fold over the (possibly empty) version list with
base 0 models exactly that.  The `except` branch returns 1 when the query
raises, modelled by the `queryFails` oracle. -/
def get_next_version (db : DB) (cid : Nat) (queryFails : Bool) : Nat :=
  if queryFails then 1
  else (versionsOf db cid).foldr max 0 + 1

/-- `save_notes` (app/db_utils.py): in one session, `UPDATE campaign_specs
SET notes = :notes, last_updated = CURRENT_TIMESTAMP WHERE id = :id`, then
`INSERT INTO notes_history (campaign_id, notes, edited_by, edited_at)
VALUES (...)`, then `commit()`; on any exception returns False with
nothing committed. -/
def save_notes (db : DB) (cid : Nat) (notes editor_name : String)
    (now newId : Nat) (dbFails : Bool) : DB × Bool :=
  if dbFails then (db, false)
  else
    ({ db with
        campaign_specs := db.campaign_specs.map (fun c =>
          if c.id == cid then { c with notes := some notes, last_updated := now } else c),
        notes_history := db.notes_history ++
          [{ id := newId, campaign_id := cid, notes := notes,
             edited_by := editor_name, edited_at := now }] },
      true)

/-- `delete_campaign` (app/db_utils.py): in one session, `DELETE FROM
notes_history WHERE campaign_id = :id`, `DELETE FROM spec_versions WHERE
campaign_id = :id`, `DELETE FROM campaign_specs WHERE id = :id`,
`commit()`; then verifies with `SELECT id FROM campaign_specs WHERE
id = :id` and returns True only when no row comes back.  On any
exception: rollback, return False. -/
def delete_campaign (db : DB) (cid : Nat) (dbFails : Bool) : DB × Bool :=
  if dbFails then (db, false)
  else
    let db' : DB :=
      { campaign_specs := db.campaign_specs.filter (fun c => !(c.id == cid)),
        notes_history := db.notes_history.filter (fun r => !(r.campaign_id == cid)),
        spec_versions := db.spec_versions.filter (fun v => !(v.campaign_id == cid)) }
    if db'.campaign_specs.any (fun c => c.id == cid) then (db', false)
    else (db', true)

/-- Python truthiness on an optional string argument:
`str(x) if x else None` maps both `None` and `""` to NULL. -/
def pyOptStr (o : Option String) : Option String :=
  match o with
  | none => none
  | some s => if s = "" then none else some s

/-- Python truthiness on the optional `cpa` argument:
`float(cpa) if cpa else None` maps both `None` and `0` to NULL. -/
def pyOptCpa (o : Option Int) : Option Int :=
  match o with
  | none => none
  | some v => if v = 0 then none else some v

/-- `add_campaign` (app/db_utils.py): `INSERT INTO campaign_specs (name,
client, status, payment_model, cpa, pdf_filename, notes, spec_url,
last_updated) VALUES (..., CURRENT_TIMESTAMP) RETURNING id`, `commit()`.
There is no validation of `name` or `client`; the optional fields pass
through Python truthiness (`str(x) if x else None`).  Returns True on
success (the id from `RETURNING id` is read into a local but not
returned), False on exception with nothing committed. -/
def add_campaign (db : DB) (name client status : String)
    (payment_model : Option String) (cpa : Option Int)
    (pdf_filename notes spec_url : Option String)
    (now newId : Nat) (dbFails : Bool) : DB × Bool :=
  if dbFails then (db, false)
  else
    ({ db with
        campaign_specs := db.campaign_specs ++
          [{ id := newId, name := name, client := client, status := status,
             payment_model := pyOptStr payment_model, cpa := pyOptCpa cpa,
             pdf_filename := pyOptStr pdf_filename, notes := pyOptStr notes,
             spec_url := pyOptStr spec_url, last_updated := now }] },
      true)

/-! Sanitisation helpers from `app/ui_components.py`, over `List Char`. -/

/-- The list suffix after the first `'>'`, if any. -/
def splitAfterGt : List Char → Option (List Char)
  | [] => none
  | c :: rest => if c = '>' then some rest else splitAfterGt rest

theorem splitAfterGt_length : ∀ {l l' : List Char}, splitAfterGt l = some l' → l'.length < l.length
  | c :: rest, l', h => by
    by_cases hc : c = '>'
    · simp [splitAfterGt, hc] at h
      simp [← h]
    · simp [splitAfterGt, hc] at h
      exact Nat.lt_trans (splitAfterGt_length h) (Nat.lt_succ_self _)

/-- `re.sub(r'<[^>]+>', '', text)`: drop every non-overlapping leftmost
match of `<`, one or more non-`>` characters, then `>`. -/
def removeHtmlTags : List Char → List Char
  | [] => []
  | c :: rest =>
    if c = '<' then
      match rest with
      | [] => ['<']
      | d :: rest2 =>
        if d = '>' then '<' :: removeHtmlTags (d :: rest2)
        else
          match h : splitAfterGt (d :: rest2) with
          | some after => removeHtmlTags after
          | none => '<' :: removeHtmlTags (d :: rest2)
    else c :: removeHtmlTags rest
termination_by l => l.length
decreasing_by
  · simp
  · exact Nat.lt_trans (splitAfterGt_length h) (Nat.lt_succ_self _)
  · simp
  · simp

/-- The pattern `javascript:` as characters. -/
def jsProto : List Char := "javascript:".toList

/-- `re.sub(r'javascript:', '', text, flags=re.IGNORECASE)`: drop every
non-overlapping leftmost case-insensitive occurrence of `javascript:`. -/
def removeJsProto : List Char → List Char
  | [] => []
  | c :: rest =>
    if ((c :: rest).take 11).map Char.toLower = jsProto then
      removeJsProto ((c :: rest).drop 11)
    else
      c :: removeJsProto rest
termination_by l => l.length
decreasing_by
  · simp [List.length_drop]
    omega
  · simp

/-- Python whitespace as stripped by `str.strip()`. -/
def isPySpace (c : Char) : Bool :=
  c = ' ' || c = '\t' || c = '\n' || c = '\x0d' || c = '\x0b' || c = '\x0c'

/-- `text.strip()`: remove leading and trailing whitespace. -/
def pyStrip (l : List Char) : List Char :=
  ((l.dropWhile isPySpace).reverse.dropWhile isPySpace).reverse

/-- `sanitize_input` (app/ui_components.py): `return ""` when the input is
falsy; otherwise remove HTML tags, remove `javascript:` protocols
case-insensitively, and strip. -/
def sanitize_input (l : List Char) : List Char :=
  if l = [] then []
  else pyStrip (removeJsProto (removeHtmlTags l))

/-- `sanitize_markdown` (app/ui_components.py): `return ""` when falsy;
otherwise escape each of `*`, `_`, `~` with a backslash and strip. -/
def sanitize_markdown (l : List Char) : List Char :=
  if l = [] then []
  else pyStrip (l.flatMap (fun c => if c = '*' || c = '_' || c = '~' then ['\\', c] else [c]))

/-- The notes-save path of `display_campaign_content`
(app/campaign_components.py): `sanitized_notes = sanitize_markdown(new_notes)`;
`sanitized_editor = sanitize_input(editor_name) or 'Anonymous User'`
(Python `or`: the empty string falls back to the sentinel); then
`save_notes(conn, row['id'], sanitized_notes, sanitized_editor)`. -/
def record_edit (db : DB) (cid : Nat) (new_notes editor_name : String)
    (now newId : Nat) (dbFails : Bool) : DB × Bool :=
  let sanitized_notes := String.mk (sanitize_markdown new_notes.toList)
  let s := sanitize_input editor_name.toList
  let sanitized_editor := if s = [] then "Anonymous User" else String.mk s
  save_notes db cid sanitized_notes sanitized_editor now newId dbFails

/-- The full-record update of `show_edit_campaigns_page`
(app/components/edit_campaigns.py): `UPDATE campaign_specs SET name = ...,
client = ..., status = ..., payment_model = ..., cpa = ..., spec_url = ...,
notes = ... WHERE id = :id`, `commit()`.  Note the statement does not set
`last_updated`. -/
def update_campaign (db : DB) (cid : Nat) (name client status payment_model : String)
    (cpa : Int) (spec_url notes : String) (dbFails : Bool) : DB × Bool :=
  if dbFails then (db, false)
  else
    ({ db with campaign_specs := db.campaign_specs.map (fun c =>
        if c.id == cid then
          { c with name := name, client := client, status := status,
                   payment_model := some payment_model, cpa := some cpa,
                   spec_url := some spec_url, notes := some notes }
        else c) },
      true)

/-- The `ORDER BY name` relation on campaign rows. -/
def leByName (a b : Campaign) : Prop := a.name ≤ b.name

instance : DecidableRel leByName := fun a b => inferInstanceAs (Decidable (a.name ≤ b.name))

instance : IsTotal Campaign leByName := ⟨fun a b => le_total a.name b.name⟩

instance : IsTrans Campaign leByName := ⟨fun _ _ _ h1 h2 => le_trans h1 h2⟩

/-- `get_campaign_data` (app/db_utils.py): `SELECT ... FROM campaign_specs
ORDER BY name`; the `except` branch returns an empty DataFrame when the
read raises, modelled by the `queryFails` oracle. -/
def get_campaign_data (db : DB) (queryFails : Bool) : List Campaign :=
  if queryFails then []
  else db.campaign_specs.insertionSort leByName

/-- The environment oracles of one `handle_spec_upload` run: the uploaded
file's content type, the `strftime` timestamp used in the generated
filename, and whether each fallible step raises. -/
structure UploadEnv where
  fileType : String
  timestamp : String
  versionQueryFails : Bool
  fileExistsAlready : Bool
  writeFails : Bool
  dbFails : Bool
  removeFails : Bool
  deriving Repr, DecidableEq

/-- Outcome of one `handle_spec_upload` run: the database afterwards,
the returned success flag, whether the file was ever written, whether it
remains on disk at the end, and whether an exception escaped the call. -/
structure UploadResult where
  db : DB
  success : Bool
  fileWritten : Bool
  fileOnDisk : Bool
  raised : Bool
  deriving Repr, DecidableEq

/-- The generated filename:
`f"{campaign_name} - Posting Instructions v{version}_{timestamp}.pdf"`. -/
def mkSpecFilename (campaignName : String) (version : Nat) (timestamp : String) : String :=
  campaignName ++ " - Posting Instructions v" ++ toString version ++ "_" ++ timestamp ++ ".pdf"

/-- `handle_spec_upload` (app/spec_utils.py): rejects a non-PDF content
type; looks the campaign up (`SELECT name FROM campaign_specs WHERE id =
:campaign_id`) and fails when absent; computes `get_next_version`; builds
the filename from campaign name, version and timestamp; fails if that file
already exists; writes the bytes (failure aborts with no database change);
then, in one session, inserts the `spec_versions` row and runs `UPDATE
campaign_specs SET pdf_filename = :filename WHERE id = :id`, committing
both together — on exception, rollback and return False.  The `finally`
block removes the written file whenever the run was not successful; an
exception from that removal is caught and logged, never re-raised, so no
exception escapes the call. -/
def handle_spec_upload (db : DB) (cid : Nat) (env : UploadEnv)
    (uploader_name : String) (now newId : Nat) : UploadResult :=
  if env.fileType ≠ "application/pdf" then ⟨db, false, false, false, false⟩
  else
    match db.campaign_specs.find? (fun c => c.id == cid) with
    | none => ⟨db, false, false, false, false⟩
    | some camp =>
      let version := get_next_version db cid env.versionQueryFails
      let filename := mkSpecFilename camp.name version env.timestamp
      if env.fileExistsAlready then ⟨db, false, false, false, false⟩
      else if env.writeFails then ⟨db, false, false, false, false⟩
      else if env.dbFails then
        if env.removeFails then ⟨db, false, true, true, false⟩
        else ⟨db, false, true, false, false⟩
      else
        ⟨{ db with
            spec_versions := db.spec_versions ++
              [{ id := newId, campaign_id := cid, version := version,
                 filename := filename, uploaded_by := uploader_name,
                 uploaded_at := now }],
            campaign_specs := db.campaign_specs.map (fun c =>
              if c.id == cid then { c with pdf_filename := some filename } else c) },
          true, true, true, false⟩

/-- An upload environment in which every fallible step succeeds. -/
def goodEnv (stamp : String) : UploadEnv :=
  { fileType := "application/pdf", timestamp := stamp, versionQueryFails := false,
    fileExistsAlready := false, writeFails := false, dbFails := false,
    removeFails := false }

/-- `n` strictly sequential uploads to campaign `cid`, each step running
`handle_spec_upload` to completion before the next starts, with
per-upload timestamps, row ids and clock values supplied by `stamps`,
`ids` and `times`. -/
def runUploads (cid : Nat) (uploader : String) (stamps : Nat → String)
    (ids : Nat → Nat) (times : Nat → Nat) : DB → Nat → DB
  | db, 0 => db
  | db, n+1 =>
    (handle_spec_upload (runUploads cid uploader stamps ids times db n) cid
      (goodEnv (stamps n)) uploader (times n) (ids n)).db

/-- The `spec_versions` row created by the `(k+1)`-st sequential upload
to a campaign named `nameC` that started with no version rows. -/
def expectedRow (cid : Nat) (uploader : String) (stamps : Nat → String)
    (ids : Nat → Nat) (times : Nat → Nat) (nameC : String) (k : Nat) : VersionRow :=
  { id := ids k, campaign_id := cid, version := k + 1,
    filename := mkSpecFilename nameC (k + 1) (stamps k),
    uploaded_by := uploader, uploaded_at := times k }

/-- The campaign row after `n` sequential uploads: unchanged for `n = 0`,
and with `pdf_filename` pointing at the latest generated filename
otherwise. -/
def expectedCamp (camp : Campaign) (stamps : Nat → String) : Nat → Campaign
  | 0 => camp
  | n+1 =>
    { camp with pdf_filename := some (mkSpecFilename camp.name (n + 1) (stamps n)) }

/-! Helper lemmas about folded maxima, shared by the version-numbering
results. -/

theorem foldr_max_const (m : Nat) :
    ∀ l : List Nat, (∀ x ∈ l, x ≤ m) → l.foldr max m = m
  | [], _ => rfl
  | x :: xs, h => by
    have hx : x ≤ m := h x (List.mem_cons_self _ _)
    have ht := foldr_max_const m xs (fun y hy => h y (List.mem_cons_of_mem _ hy))
    simp [List.foldr_cons, ht, Nat.max_eq_right hx]

theorem foldr_max_mem : ∀ l : List Nat, l ≠ [] → l.foldr max 0 ∈ l
  | [x], _ => by simp
  | x :: y :: t, _ => by
    have ih := foldr_max_mem (y :: t) (by simp)
    have hfold : (x :: y :: t).foldr max 0 = max x ((y :: t).foldr max 0) := rfl
    rcases Nat.le_total x ((y :: t).foldr max 0) with h | h
    · rw [hfold, Nat.max_eq_right h]
      exact List.mem_cons_of_mem _ ih
    · rw [hfold, Nat.max_eq_left h]
      exact List.mem_cons_self _ _

theorem le_foldr_max : ∀ (l : List Nat), ∀ x ∈ l, x ≤ l.foldr max 0
  | a :: l, x, hx => by
    rcases List.mem_cons.mp hx with h | h
    · subst h
      simp only [List.foldr_cons]
      exact Nat.le_max_left _ _
    · simp only [List.foldr_cons]
      exact Nat.le_trans (le_foldr_max l x h) (Nat.le_max_right _ _)

theorem foldr_max_range (n : Nat) :
    ((List.range n).map (fun k => k + 1)).foldr max 0 = n := by
  induction n with
  | zero => rfl
  | succ n ih =>
    rw [List.range_succ, List.map_append, List.foldr_append]
    simp only [List.map_cons, List.map_nil, List.foldr_cons, List.foldr_nil,
      Nat.max_zero]
    exact foldr_max_const (n + 1) _ (by
      intro x hx
      rcases List.mem_map.mp hx with ⟨k, hk, rfl⟩
      exact Nat.succ_le_succ (Nat.le_of_lt (List.mem_range.mp hk)))

/-- C6: `next_version(campaign_id)` returns 1 when the campaign has no
prior spec-version rows, and otherwise returns `max(version)` over that
campaign's `spec_versions` rows plus 1. -/
theorem get_next_version_spec (db : DB) (cid : Nat) :
    (versionsOf db cid = [] → get_next_version db cid false = 1) ∧
    (versionsOf db cid ≠ [] →
      ∃ m, m ∈ versionsOf db cid ∧ (∀ x ∈ versionsOf db cid, x ≤ m) ∧
        get_next_version db cid false = m + 1) := by
  constructor
  · intro h
    simp [get_next_version, h]
  · intro h
    refine ⟨(versionsOf db cid).foldr max 0, foldr_max_mem _ h, le_foldr_max _, ?_⟩
    simp [get_next_version]

/-- Witness for C6 on a concrete database with versions 1 and 2. -/
theorem get_next_version_spec_witness :
    (versionsOf
        { campaign_specs := [],
          notes_history := [],
          spec_versions :=
            [{ id := 1, campaign_id := 1, version := 1, filename := "a",
               uploaded_by := "u", uploaded_at := 0 },
             { id := 2, campaign_id := 1, version := 2, filename := "b",
               uploaded_by := "u", uploaded_at := 1 }] } 1 ≠ []) ∧
    (∃ m, m ∈ versionsOf
        { campaign_specs := [],
          notes_history := [],
          spec_versions :=
            [{ id := 1, campaign_id := 1, version := 1, filename := "a",
               uploaded_by := "u", uploaded_at := 0 },
             { id := 2, campaign_id := 1, version := 2, filename := "b",
               uploaded_by := "u", uploaded_at := 1 }] } 1 ∧
      (∀ x ∈ versionsOf
        { campaign_specs := [],
          notes_history := [],
          spec_versions :=
            [{ id := 1, campaign_id := 1, version := 1, filename := "a",
               uploaded_by := "u", uploaded_at := 0 },
             { id := 2, campaign_id := 1, version := 2, filename := "b",
               uploaded_by := "u", uploaded_at := 1 }] } 1, x ≤ m) ∧
      get_next_version
        { campaign_specs := [],
          notes_history := [],
          spec_versions :=
            [{ id := 1, campaign_id := 1, version := 1, filename := "a",
               uploaded_by := "u", uploaded_at := 0 },
             { id := 2, campaign_id := 1, version := 2, filename := "b",
               uploaded_by := "u", uploaded_at := 1 }] } 1 false = m + 1) := by
  refine ⟨by decide, (get_next_version_spec _ 1).2 (by decide)⟩

/-- C3: `record_edit`'s persistence step (`save_notes`) is atomic: on
success the campaign's notes column and `last_updated` are updated and
exactly the one history row is appended; on failure it reports failure
and the database is entirely unchanged — no partial state exists. -/
theorem save_notes_atomic (db : DB) (cid : Nat) (notes editor : String)
    (now newId : Nat) (dbFails : Bool) :
    ((save_notes db cid notes editor now newId dbFails).2 = true →
      (∀ c ∈ (save_notes db cid notes editor now newId dbFails).1.campaign_specs,
        c.id = cid → c.notes = some notes ∧ c.last_updated = now) ∧
      (save_notes db cid notes editor now newId dbFails).1.notes_history =
        db.notes_history ++
          [{ id := newId, campaign_id := cid, notes := notes,
             edited_by := editor, edited_at := now }] ∧
      (save_notes db cid notes editor now newId dbFails).1.spec_versions =
        db.spec_versions) ∧
    ((save_notes db cid notes editor now newId dbFails).2 = false →
      (save_notes db cid notes editor now newId dbFails).1 = db) := by
  cases dbFails with
  | true => simp [save_notes]
  | false =>
    constructor
    · intro _
      refine ⟨?_, rfl, rfl⟩
      intro c hc hcid
      have hc' : c ∈ db.campaign_specs.map (fun c =>
          if c.id == cid then { c with notes := some notes, last_updated := now }
          else c) := hc
      rcases List.mem_map.mp hc' with ⟨c0, _, rfl⟩
      by_cases h0 : (c0.id == cid) = true
      · simp [h0]
      · rw [if_neg h0] at hcid
        exact absurd (beq_iff_eq.mpr hcid) h0
    · intro h
      exact absurd h (by simp [save_notes])

/-- Witness for C3 on a concrete database. -/
theorem save_notes_atomic_witness :
    (∀ c ∈ (save_notes
        { campaign_specs :=
            [{ id := 1, name := "Acme", client := "Acme Corp", status := "Active",
               payment_model := none, cpa := none, pdf_filename := none,
               notes := none, spec_url := none, last_updated := 0 }],
          notes_history := [], spec_versions := [] }
        1 "hello" "ed" 5 7 false).1.campaign_specs,
      c.id = 1 → c.notes = some "hello" ∧ c.last_updated = 5) := by
  refine fun c hc hcid =>
    ((save_notes_atomic
      { campaign_specs :=
          [{ id := 1, name := "Acme", client := "Acme Corp", status := "Active",
             payment_model := none, cpa := none, pdf_filename := none,
             notes := none, spec_url := none, last_updated := 0 }],
        notes_history := [], spec_versions := [] }
      1 "hello" "ed" 5 7 false).1 (by decide)).1 c hc hcid

/-- C2: after `delete_campaign` reports success, no row referencing the
campaign id remains in any of the three tables; and when the transaction
fails, nothing changed and failure is reported (all-or-nothing). -/
theorem delete_campaign_cascade (db : DB) (cid : Nat) (dbFails : Bool) :
    ((delete_campaign db cid dbFails).2 = true →
      (∀ c ∈ (delete_campaign db cid dbFails).1.campaign_specs, c.id ≠ cid) ∧
      (∀ n ∈ (delete_campaign db cid dbFails).1.notes_history, n.campaign_id ≠ cid) ∧
      (∀ v ∈ (delete_campaign db cid dbFails).1.spec_versions, v.campaign_id ≠ cid)) ∧
    (dbFails = true →
      (delete_campaign db cid dbFails).1 = db ∧
      (delete_campaign db cid dbFails).2 = false) := by
  cases dbFails with
  | true => simp [delete_campaign]
  | false =>
    have hverify :
        ((db.campaign_specs.filter (fun c => !(c.id == cid))).any
          (fun c => c.id == cid)) = false := by
      rw [Bool.eq_false_iff]
      intro h
      rcases List.any_eq_true.mp h with ⟨c, hc, hcid⟩
      have h2 := (List.mem_filter.mp hc).2
      rw [hcid] at h2
      simp at h2
    have hred : delete_campaign db cid false =
        ({ campaign_specs := db.campaign_specs.filter (fun c => !(c.id == cid)),
           notes_history := db.notes_history.filter (fun r => !(r.campaign_id == cid)),
           spec_versions := db.spec_versions.filter (fun v => !(v.campaign_id == cid)) },
         true) := by
      simp [delete_campaign, hverify]
    constructor
    · intro _
      rw [hred]
      refine ⟨?_, ?_, ?_⟩ <;>
        · intro r hr
          have h2 := (List.mem_filter.mp hr).2
          simpa using h2
    · intro h
      simp at h

/-- Witness for C2: deleting campaign 1 from a database holding the
campaign, three history rows and two version rows leaves no row for it. -/
theorem delete_campaign_cascade_witness :
    (∀ c ∈ (delete_campaign
        { campaign_specs :=
            [{ id := 1, name := "Acme", client := "Acme Corp", status := "Active",
               payment_model := none, cpa := none, pdf_filename := none,
               notes := none, spec_url := none, last_updated := 0 }],
          notes_history :=
            [{ id := 1, campaign_id := 1, notes := "a", edited_by := "u", edited_at := 0 },
             { id := 2, campaign_id := 1, notes := "b", edited_by := "u", edited_at := 1 },
             { id := 3, campaign_id := 1, notes := "c", edited_by := "u", edited_at := 2 }],
          spec_versions :=
            [{ id := 1, campaign_id := 1, version := 1, filename := "f1",
               uploaded_by := "u", uploaded_at := 0 },
             { id := 2, campaign_id := 1, version := 2, filename := "f2",
               uploaded_by := "u", uploaded_at := 1 }] }
        1 false).1.campaign_specs, c.id ≠ 1) ∧
    (∀ n ∈ (delete_campaign
        { campaign_specs :=
            [{ id := 1, name := "Acme", client := "Acme Corp", status := "Active",
               payment_model := none, cpa := none, pdf_filename := none,
               notes := none, spec_url := none, last_updated := 0 }],
          notes_history :=
            [{ id := 1, campaign_id := 1, notes := "a", edited_by := "u", edited_at := 0 },
             { id := 2, campaign_id := 1, notes := "b", edited_by := "u", edited_at := 1 },
             { id := 3, campaign_id := 1, notes := "c", edited_by := "u", edited_at := 2 }],
          spec_versions :=
            [{ id := 1, campaign_id := 1, version := 1, filename := "f1",
               uploaded_by := "u", uploaded_at := 0 },
             { id := 2, campaign_id := 1, version := 2, filename := "f2",
               uploaded_by := "u", uploaded_at := 1 }] }
        1 false).1.notes_history, n.campaign_id ≠ 1) := by
  have h := delete_campaign_cascade
    { campaign_specs :=
        [{ id := 1, name := "Acme", client := "Acme Corp", status := "Active",
           payment_model := none, cpa := none, pdf_filename := none,
           notes := none, spec_url := none, last_updated := 0 }],
      notes_history :=
        [{ id := 1, campaign_id := 1, notes := "a", edited_by := "u", edited_at := 0 },
         { id := 2, campaign_id := 1, notes := "b", edited_by := "u", edited_at := 1 },
         { id := 3, campaign_id := 1, notes := "c", edited_by := "u", edited_at := 2 }],
      spec_versions :=
        [{ id := 1, campaign_id := 1, version := 1, filename := "f1",
           uploaded_by := "u", uploaded_at := 0 },
         { id := 2, campaign_id := 1, version := 2, filename := "f2",
           uploaded_by := "u", uploaded_at := 1 }] }
    1 false
  exact ⟨(h.1 (by decide)).1, (h.1 (by decide)).2.1⟩

/-- C8: `list_all` (`get_campaign_data`) returns all campaigns ordered by
name ascending; with no rows it returns the empty sequence, and when the
underlying read fails it returns the empty sequence rather than raising. -/
theorem get_campaign_data_spec (db : DB) (queryFails : Bool) :
    (queryFails = true → get_campaign_data db queryFails = []) ∧
    (queryFails = false →
      (get_campaign_data db queryFails).Perm db.campaign_specs ∧
      List.Sorted leByName (get_campaign_data db queryFails) ∧
      (db.campaign_specs = [] → get_campaign_data db queryFails = [])) := by
  cases queryFails with
  | true => simp [get_campaign_data]
  | false =>
    refine ⟨by simp, fun _ => ⟨?_, ?_, ?_⟩⟩
    · simpa [get_campaign_data] using List.perm_insertionSort leByName db.campaign_specs
    · simpa [get_campaign_data] using List.sorted_insertionSort leByName db.campaign_specs
    · intro h
      simp [get_campaign_data, h]

/-- Witness for C8 on a two-campaign database whose rows are out of
name order. -/
theorem get_campaign_data_spec_witness :
    (get_campaign_data
      { campaign_specs :=
          [{ id := 1, name := "Zeta", client := "Z", status := "Active",
             payment_model := none, cpa := none, pdf_filename := none,
             notes := none, spec_url := none, last_updated := 0 },
           { id := 2, name := "Acme", client := "A", status := "Active",
             payment_model := none, cpa := none, pdf_filename := none,
             notes := none, spec_url := none, last_updated := 0 }],
        notes_history := [], spec_versions := [] } false).Perm
      [{ id := 1, name := "Zeta", client := "Z", status := "Active",
         payment_model := none, cpa := none, pdf_filename := none,
         notes := none, spec_url := none, last_updated := 0 },
       { id := 2, name := "Acme", client := "A", status := "Active",
         payment_model := none, cpa := none, pdf_filename := none,
         notes := none, spec_url := none, last_updated := 0 }] ∧
    List.Sorted leByName (get_campaign_data
      { campaign_specs :=
          [{ id := 1, name := "Zeta", client := "Z", status := "Active",
             payment_model := none, cpa := none, pdf_filename := none,
             notes := none, spec_url := none, last_updated := 0 },
           { id := 2, name := "Acme", client := "A", status := "Active",
             payment_model := none, cpa := none, pdf_filename := none,
             notes := none, spec_url := none, last_updated := 0 }],
        notes_history := [], spec_versions := [] } false) := by
  have h := (get_campaign_data_spec
    { campaign_specs :=
        [{ id := 1, name := "Zeta", client := "Z", status := "Active",
           payment_model := none, cpa := none, pdf_filename := none,
           notes := none, spec_url := none, last_updated := 0 },
         { id := 2, name := "Acme", client := "A", status := "Active",
           payment_model := none, cpa := none, pdf_filename := none,
           notes := none, spec_url := none, last_updated := 0 }],
      notes_history := [], spec_versions := [] } false).2 rfl
  exact ⟨h.1, h.2.1⟩

/-- C9: in `handle_spec_upload`, when the file has been written to disk
but the database unit (version insert plus pointer update) fails, the
operation reports failure with the database unchanged, the written file
is removed as best-effort compensation, and a failure of that compensating
removal leaves the file behind but is not re-raised: no exception escapes
the call. -/
theorem handle_spec_upload_compensation (db : DB) (cid : Nat) (env : UploadEnv)
    (uploader : String) (now newId : Nat)
    (hpdf : env.fileType = "application/pdf")
    (hfound : (db.campaign_specs.find? (fun c => c.id == cid)).isSome = true)
    (hex : env.fileExistsAlready = false)
    (hw : env.writeFails = false)
    (hdb : env.dbFails = true) :
    (handle_spec_upload db cid env uploader now newId).success = false ∧
    (handle_spec_upload db cid env uploader now newId).db = db ∧
    (handle_spec_upload db cid env uploader now newId).fileWritten = true ∧
    (handle_spec_upload db cid env uploader now newId).raised = false ∧
    (handle_spec_upload db cid env uploader now newId).fileOnDisk = env.removeFails := by
  rcases Option.isSome_iff_exists.mp hfound with ⟨camp, hcamp⟩
  cases hrm : env.removeFails with
  | true => simp [handle_spec_upload, hpdf, hcamp, hex, hw, hdb, hrm]
  | false => simp [handle_spec_upload, hpdf, hcamp, hex, hw, hdb, hrm]

/-- Witness for C9: a concrete upload whose database transaction fails. -/
theorem handle_spec_upload_compensation_witness :
    (handle_spec_upload
      { campaign_specs :=
          [{ id := 1, name := "Acme", client := "Acme Corp", status := "Active",
             payment_model := none, cpa := none, pdf_filename := none,
             notes := none, spec_url := none, last_updated := 0 }],
        notes_history := [], spec_versions := [] }
      1
      { fileType := "application/pdf", timestamp := "20240101_000000",
        versionQueryFails := false, fileExistsAlready := false,
        writeFails := false, dbFails := true, removeFails := false }
      "u" 5 9).success = false ∧
    (handle_spec_upload
      { campaign_specs :=
          [{ id := 1, name := "Acme", client := "Acme Corp", status := "Active",
             payment_model := none, cpa := none, pdf_filename := none,
             notes := none, spec_url := none, last_updated := 0 }],
        notes_history := [], spec_versions := [] }
      1
      { fileType := "application/pdf", timestamp := "20240101_000000",
        versionQueryFails := false, fileExistsAlready := false,
        writeFails := false, dbFails := true, removeFails := false }
      "u" 5 9).fileOnDisk = false ∧
    (handle_spec_upload
      { campaign_specs :=
          [{ id := 1, name := "Acme", client := "Acme Corp", status := "Active",
             payment_model := none, cpa := none, pdf_filename := none,
             notes := none, spec_url := none, last_updated := 0 }],
        notes_history := [], spec_versions := [] }
      1
      { fileType := "application/pdf", timestamp := "20240101_000000",
        versionQueryFails := false, fileExistsAlready := false,
        writeFails := false, dbFails := true, removeFails := false }
      "u" 5 9).raised = false := by
  have h := handle_spec_upload_compensation
    { campaign_specs :=
        [{ id := 1, name := "Acme", client := "Acme Corp", status := "Active",
           payment_model := none, cpa := none, pdf_filename := none,
           notes := none, spec_url := none, last_updated := 0 }],
      notes_history := [], spec_versions := [] }
    1
    { fileType := "application/pdf", timestamp := "20240101_000000",
      versionQueryFails := false, fileExistsAlready := false,
      writeFails := false, dbFails := true, removeFails := false }
    "u" 5 9 rfl (by decide) rfl rfl rfl
  exact ⟨h.1, h.2.2.2.2, h.2.2.2.1⟩

/-- C10: when its `max(version)` query fails, `get_next_version` silently
returns 1 even though prior version rows exist, and the subsequent upload
then inserts a second row with version 1 for the same campaign — a
duplicate version number. -/
theorem get_next_version_failure_duplicates (db : DB) (cid : Nat)
    (stamp uploader : String) (now newId : Nat)
    (hfound : (db.campaign_specs.find? (fun c => c.id == cid)).isSome = true)
    (v : VersionRow) (hv : v ∈ db.spec_versions) (hvc : v.campaign_id = cid)
    (hv1 : v.version = 1) :
    get_next_version db cid true = 1 ∧
    (handle_spec_upload db cid
      { fileType := "application/pdf", timestamp := stamp,
        versionQueryFails := true, fileExistsAlready := false,
        writeFails := false, dbFails := false, removeFails := false }
      uploader now newId).success = true ∧
    2 ≤ ((handle_spec_upload db cid
      { fileType := "application/pdf", timestamp := stamp,
        versionQueryFails := true, fileExistsAlready := false,
        writeFails := false, dbFails := false, removeFails := false }
      uploader now newId).db.spec_versions.filter
        (fun w => w.campaign_id == cid && w.version == 1)).length := by
  rcases Option.isSome_iff_exists.mp hfound with ⟨camp, hcamp⟩
  refine ⟨rfl, ?_, ?_⟩
  · simp [handle_spec_upload, hcamp]
  · have hred : (handle_spec_upload db cid
        { fileType := "application/pdf", timestamp := stamp,
          versionQueryFails := true, fileExistsAlready := false,
          writeFails := false, dbFails := false, removeFails := false }
        uploader now newId).db.spec_versions =
        db.spec_versions ++
          [{ id := newId, campaign_id := cid, version := 1,
             filename := mkSpecFilename camp.name 1 stamp,
             uploaded_by := uploader, uploaded_at := now }] := by
      simp [handle_spec_upload, hcamp, get_next_version]
    rw [hred, List.filter_append]
    rw [List.length_append]
    have h1 : v ∈ db.spec_versions.filter
        (fun w => w.campaign_id == cid && w.version == 1) :=
      List.mem_filter.mpr ⟨hv, by simp [hvc, hv1]⟩
    have h2 : 1 ≤ (db.spec_versions.filter
        (fun w => w.campaign_id == cid && w.version == 1)).length :=
      List.length_pos_of_mem h1
    have h3 : (([({ id := newId, campaign_id := cid, version := 1,
                    filename := mkSpecFilename camp.name 1 stamp,
                    uploaded_by := uploader,
                    uploaded_at := now } : VersionRow)]).filter
        (fun w => w.campaign_id == cid && w.version == 1)).length = 1 := by
      simp
    omega

/-- Witness for C10: a campaign that already has a version-1 row; with the
failing max-query the upload records version 1 again. -/
theorem get_next_version_failure_duplicates_witness :
    get_next_version
      { campaign_specs :=
          [{ id := 1, name := "Acme", client := "Acme Corp", status := "Active",
             payment_model := none, cpa := none, pdf_filename := some "f1",
             notes := none, spec_url := none, last_updated := 0 }],
        notes_history := [],
        spec_versions :=
          [{ id := 1, campaign_id := 1, version := 1, filename := "f1",
             uploaded_by := "u", uploaded_at := 0 }] } 1 true = 1 ∧
    2 ≤ ((handle_spec_upload
      { campaign_specs :=
          [{ id := 1, name := "Acme", client := "Acme Corp", status := "Active",
             payment_model := none, cpa := none, pdf_filename := some "f1",
             notes := none, spec_url := none, last_updated := 0 }],
        notes_history := [],
        spec_versions :=
          [{ id := 1, campaign_id := 1, version := 1, filename := "f1",
             uploaded_by := "u", uploaded_at := 0 }] }
      1
      { fileType := "application/pdf", timestamp := "20240101_000000",
        versionQueryFails := true, fileExistsAlready := false,
        writeFails := false, dbFails := false, removeFails := false }
      "u" 5 9).db.spec_versions.filter
        (fun w => w.campaign_id == 1 && w.version == 1)).length := by
  have h := get_next_version_failure_duplicates
    { campaign_specs :=
        [{ id := 1, name := "Acme", client := "Acme Corp", status := "Active",
           payment_model := none, cpa := none, pdf_filename := some "f1",
           notes := none, spec_url := none, last_updated := 0 }],
      notes_history := [],
      spec_versions :=
        [{ id := 1, campaign_id := 1, version := 1, filename := "f1",
           uploaded_by := "u", uploaded_at := 0 }] }
    1 "20240101_000000" "u" 5 9 (by decide)
    { id := 1, campaign_id := 1, version := 1, filename := "f1",
      uploaded_by := "u", uploaded_at := 0 }
    (by decide) rfl rfl
  exact ⟨h.1, h.2.2⟩

/-- Counterexample to C4: `add_campaign` called with an empty `name`
reports success and inserts the row with the empty name — there is no
validation of `name` or `client`, so no ValidationError occurs. -/
theorem add_campaign_accepts_empty_name :
    (add_campaign { campaign_specs := [], notes_history := [], spec_versions := [] }
      "" "Acme Corp" "Active" none none none none none 0 1 false).2 = true ∧
    ∃ c ∈ (add_campaign { campaign_specs := [], notes_history := [], spec_versions := [] }
      "" "Acme Corp" "Active" none none none none none 0 1 false).1.campaign_specs,
      c.name = "" := by
  refine ⟨rfl, ?_⟩
  exact ⟨{ id := 1, name := "", client := "Acme Corp", status := "Active",
           payment_model := none, cpa := none, pdf_filename := none,
           notes := none, spec_url := none, last_updated := 0 },
         by decide, rfl⟩

/-- C4 amended: `add_campaign` performs no validation of `name` or
`client` — any values, including empty strings, are inserted.  When the
transaction succeeds it inserts exactly one row (carrying the
server-assigned id and timestamp, with Python-truthiness applied to the
optional fields) and returns the boolean True, not the new id; when the
transaction fails it returns False with the database unchanged. -/
theorem add_campaign_behavior (db : DB) (name client status : String)
    (payment_model : Option String) (cpa : Option Int)
    (pdf_filename notes spec_url : Option String) (now newId : Nat)
    (dbFails : Bool) :
    (dbFails = false →
      (add_campaign db name client status payment_model cpa pdf_filename
        notes spec_url now newId dbFails).2 = true ∧
      (add_campaign db name client status payment_model cpa pdf_filename
        notes spec_url now newId dbFails).1.campaign_specs =
        db.campaign_specs ++
          [{ id := newId, name := name, client := client, status := status,
             payment_model := pyOptStr payment_model, cpa := pyOptCpa cpa,
             pdf_filename := pyOptStr pdf_filename, notes := pyOptStr notes,
             spec_url := pyOptStr spec_url, last_updated := now }]) ∧
    (dbFails = true →
      (add_campaign db name client status payment_model cpa pdf_filename
        notes spec_url now newId dbFails).2 = false ∧
      (add_campaign db name client status payment_model cpa pdf_filename
        notes spec_url now newId dbFails).1 = db) := by
  cases dbFails with
  | true => simp [add_campaign]
  | false => simp [add_campaign]

/-- Witness for the amended C4 at concrete arguments. -/
theorem add_campaign_behavior_witness :
    (add_campaign { campaign_specs := [], notes_history := [], spec_versions := [] }
      "Acme" "Acme Corp" "Active" (some "CPL") (some 0) none none none 3 1 false).2 = true := by
  exact ((add_campaign_behavior
    { campaign_specs := [], notes_history := [], spec_versions := [] }
    "Acme" "Acme Corp" "Active" (some "CPL") (some 0) none none none 3 1 false).1 rfl).1

/-- Map of every campaign's `last_updated` column is unchanged by the
pdf-pointer update (`UPDATE campaign_specs SET pdf_filename = ...`). -/
theorem map_last_updated_pdf_update (l : List Campaign) (cid : Nat) (fn : String) :
    (l.map (fun c => if c.id == cid then { c with pdf_filename := some fn } else c)).map
      (fun c => c.last_updated) = l.map (fun c => c.last_updated) := by
  rw [List.map_map]
  refine List.map_congr_left ?_
  intro a _
  by_cases h : a.id = cid <;> simp [h]

/-- Counterexample to C5: a successful spec upload at time 7 and a
full-record edit of the editable fields both leave the campaign's
`last_updated` at its old value 0 — neither statement sets
`last_updated`, so not every mutation refreshes it. -/
theorem mutations_not_refreshing_last_updated :
    (handle_spec_upload
      { campaign_specs :=
          [{ id := 1, name := "Acme", client := "Acme Corp", status := "Active",
             payment_model := none, cpa := none, pdf_filename := none,
             notes := none, spec_url := none, last_updated := 0 }],
        notes_history := [], spec_versions := [] }
      1 (goodEnv "20240101_000000") "u" 7 9).success = true ∧
    (∀ c ∈ (handle_spec_upload
      { campaign_specs :=
          [{ id := 1, name := "Acme", client := "Acme Corp", status := "Active",
             payment_model := none, cpa := none, pdf_filename := none,
             notes := none, spec_url := none, last_updated := 0 }],
        notes_history := [], spec_versions := [] }
      1 (goodEnv "20240101_000000") "u" 7 9).db.campaign_specs,
      c.last_updated = 0) ∧
    (7 : Nat) ≠ 0 ∧
    (∀ c ∈ (update_campaign
      { campaign_specs :=
          [{ id := 1, name := "Acme", client := "Acme Corp", status := "Active",
             payment_model := none, cpa := none, pdf_filename := none,
             notes := none, spec_url := none, last_updated := 0 }],
        notes_history := [], spec_versions := [] }
      1 "Acme2" "Acme Corp" "Inactive" "CPL" 3 "http://x" "n" false).1.campaign_specs,
      c.last_updated = 0) := by
  refine ⟨rfl, by decide, by decide, by decide⟩

/-- C5 amended: of the campaign mutations, only the notes edit
(`save_notes`) sets `last_updated` to the current time; the full-record
update of the editable fields and a spec upload (which touches only
`pdf_filename`) leave every campaign's `last_updated` unchanged. -/
theorem last_updated_effects (db : DB) (cid : Nat) (notes editor : String)
    (now newId : Nat) (name client status payment_model : String) (cpa : Int)
    (spec_url notesF : String) (env : UploadEnv) (uploader : String)
    (now2 newId2 : Nat) :
    (∀ c ∈ (save_notes db cid notes editor now newId false).1.campaign_specs,
      c.id = cid → c.last_updated = now) ∧
    ((update_campaign db cid name client status payment_model cpa spec_url
        notesF false).1.campaign_specs.map (fun c => c.last_updated) =
      db.campaign_specs.map (fun c => c.last_updated)) ∧
    ((handle_spec_upload db cid env uploader now2 newId2).db.campaign_specs.map
        (fun c => c.last_updated) =
      db.campaign_specs.map (fun c => c.last_updated)) := by
  refine ⟨?_, ?_, ?_⟩
  · intro c hc hcid
    have hc' : c ∈ db.campaign_specs.map (fun c =>
        if c.id == cid then { c with notes := some notes, last_updated := now }
        else c) := hc
    rcases List.mem_map.mp hc' with ⟨c0, _, rfl⟩
    by_cases h0 : (c0.id == cid) = true
    · simp [h0]
    · rw [if_neg h0] at hcid
      exact absurd (beq_iff_eq.mpr hcid) h0
  · show ((db.campaign_specs.map (fun c =>
        if c.id == cid then
          { c with name := name, client := client, status := status,
                   payment_model := some payment_model, cpa := some cpa,
                   spec_url := some spec_url, notes := some notesF }
        else c)).map (fun c => c.last_updated)) = _
    rw [List.map_map]
    refine List.map_congr_left ?_
    intro a _
    by_cases h : a.id = cid <;> simp [h]
  · unfold handle_spec_upload
    split
    · rfl
    · split
      · rfl
      · split
        · rfl
        · split
          · rfl
          · split
            · split <;> rfl
            · simpa using map_last_updated_pdf_update db.campaign_specs cid _

/-- Witness for the amended C5 at concrete arguments. -/
theorem last_updated_effects_witness :
    ∀ c ∈ (save_notes
      { campaign_specs :=
          [{ id := 1, name := "Acme", client := "Acme Corp", status := "Active",
             payment_model := none, cpa := none, pdf_filename := none,
             notes := none, spec_url := none, last_updated := 0 }],
        notes_history := [], spec_versions := [] }
      1 "new" "ed" 4 8 false).1.campaign_specs,
      c.id = 1 → c.last_updated = 4 := by
  exact (last_updated_effects
    { campaign_specs :=
        [{ id := 1, name := "Acme", client := "Acme Corp", status := "Active",
           payment_model := none, cpa := none, pdf_filename := none,
           notes := none, spec_url := none, last_updated := 0 }],
      notes_history := [], spec_versions := [] }
    1 "new" "ed" 4 8 "x" "y" "z" "CPL" 0 "" "" (goodEnv "s") "u" 5 9).1

/-! Lemmas on the sanitisation pipeline for whitespace-only input,
supporting the blank-editor sentinel result. -/

theorem isPySpace_ne_lt {c : Char} (h : isPySpace c = true) : c ≠ '<' := by
  simp only [isPySpace, Bool.or_eq_true, decide_eq_true_eq] at h
  rcases h with ((((rfl | rfl) | rfl) | rfl) | rfl) | rfl <;> decide

theorem isPySpace_toLower_ne {c : Char} (h : isPySpace c = true) :
    Char.toLower c ≠ 'j' := by
  simp only [isPySpace, Bool.or_eq_true, decide_eq_true_eq] at h
  rcases h with ((((rfl | rfl) | rfl) | rfl) | rfl) | rfl <;> decide

theorem removeHtmlTags_of_space :
    ∀ l : List Char, (∀ c ∈ l, isPySpace c = true) → removeHtmlTags l = l
  | [], _ => by simp [removeHtmlTags]
  | c :: rest, h => by
    have hc : c ≠ '<' := isPySpace_ne_lt (h c (List.mem_cons_self _ _))
    have ih := removeHtmlTags_of_space rest
      (fun x hx => h x (List.mem_cons_of_mem _ hx))
    unfold removeHtmlTags
    rw [if_neg hc, ih]

theorem removeJsProto_of_space :
    ∀ l : List Char, (∀ c ∈ l, isPySpace c = true) → removeJsProto l = l
  | [], _ => by rw [removeJsProto]
  | c :: rest, h => by
    have hc : Char.toLower c ≠ 'j' :=
      isPySpace_toLower_ne (h c (List.mem_cons_self _ _))
    have ih := removeJsProto_of_space rest
      (fun x hx => h x (List.mem_cons_of_mem _ hx))
    have hcond : ∀ tail : List Char, ¬(Char.toLower c :: tail = jsProto) := by
      intro tail heq
      have h2 : jsProto = 'j' :: "avascript:".toList := by decide
      rw [h2] at heq
      exact hc (List.cons.inj heq).1
    simp [removeJsProto, hcond, ih]

theorem pyStrip_of_space (l : List Char) (h : ∀ c ∈ l, isPySpace c = true) :
    pyStrip l = [] := by
  have h1 : l.dropWhile isPySpace = [] := List.dropWhile_eq_nil_iff.mpr h
  simp [pyStrip, h1]

theorem sanitize_input_of_space (l : List Char) (h : ∀ c ∈ l, isPySpace c = true) :
    sanitize_input l = [] := by
  by_cases h0 : l = []
  · simp [sanitize_input, h0]
  · simp only [sanitize_input, if_neg h0]
    rw [removeHtmlTags_of_space l h, removeJsProto_of_space l h, pyStrip_of_space l h]

/-- C7: when the notes-save path runs with a blank or whitespace-only
editor string, the appended history entry's `edited_by` is the sentinel
`Anonymous User` — never the empty string. -/
theorem record_edit_blank_editor (db : DB) (cid : Nat) (new_notes editor : String)
    (now newId : Nat) (hblank : ∀ c ∈ editor.toList, isPySpace c = true) :
    (record_edit db cid new_notes editor now newId false).2 = true ∧
    (record_edit db cid new_notes editor now newId false).1.notes_history =
      db.notes_history ++
        [{ id := newId, campaign_id := cid,
           notes := String.mk (sanitize_markdown new_notes.toList),
           edited_by := "Anonymous User", edited_at := now }] ∧
    ("Anonymous User" : String) ≠ "" := by
  have hs : sanitize_input editor.toList = [] :=
    sanitize_input_of_space editor.toList hblank
  have hs2 : sanitize_input editor.data = [] := hs
  refine ⟨?_, ?_, by decide⟩
  · simp [record_edit, hs, hs2, save_notes]
  · simp [record_edit, hs, hs2, save_notes]

/-- Witness for C7: `record_edit(1, "new notes", "")` stores the
sentinel editor. -/
theorem record_edit_blank_editor_witness :
    (record_edit
      { campaign_specs :=
          [{ id := 1, name := "Acme", client := "Acme Corp", status := "Active",
             payment_model := none, cpa := none, pdf_filename := none,
             notes := none, spec_url := none, last_updated := 0 }],
        notes_history := [], spec_versions := [] }
      1 "new notes" "" 3 7 false).1.notes_history =
      [{ id := 7, campaign_id := 1,
         notes := String.mk (sanitize_markdown "new notes".toList),
         edited_by := "Anonymous User", edited_at := 3 }] := by
  have h := (record_edit_blank_editor
    { campaign_specs :=
        [{ id := 1, name := "Acme", client := "Acme Corp", status := "Active",
           payment_model := none, cpa := none, pdf_filename := none,
           notes := none, spec_url := none, last_updated := 0 }],
      notes_history := [], spec_versions := [] }
    1 "new notes" "" 3 7 (by intro c hc; simp at hc)).2.1
  simpa using h

/-! Machinery for the sequential-upload invariant. -/

theorem find?_map_update (cid : Nat) (g : Campaign → Campaign)
    (hg : ∀ c, (g c).id = c.id) :
    ∀ (l : List Campaign) (c : Campaign),
      l.find? (fun x => x.id == cid) = some c →
      (l.map (fun x => if x.id == cid then g x else x)).find?
        (fun x => x.id == cid) = some (g c)
  | [], _, h => by simp at h
  | a :: t, c, h => by
    by_cases ha : (a.id == cid) = true
    · rw [List.find?_cons_of_pos (p := fun x : Campaign => x.id == cid) _ ha] at h
      injection h with h
      subst h
      rw [List.map_cons, if_pos ha]
      exact List.find?_cons_of_pos _ (by simp only [hg]; exact ha)
    · rw [List.find?_cons_of_neg (p := fun x : Campaign => x.id == cid) _ ha] at h
      rw [List.map_cons, if_neg ha,
        List.find?_cons_of_neg (p := fun x : Campaign => x.id == cid) _ ha]
      exact find?_map_update cid g hg t c h

/-- One fully-successful `handle_spec_upload` run, characterised: it
returns True, appends the one version row carrying `next_version`, and
repoints the campaign's `pdf_filename` at the generated filename. -/
theorem handle_spec_upload_success (db : DB) (cid : Nat) (stamp uploader : String)
    (now newId : Nat) (camp : Campaign)
    (hfind : db.campaign_specs.find? (fun c => c.id == cid) = some camp) :
    handle_spec_upload db cid (goodEnv stamp) uploader now newId =
      ⟨{ db with
          spec_versions := db.spec_versions ++
            [{ id := newId, campaign_id := cid,
               version := get_next_version db cid false,
               filename := mkSpecFilename camp.name
                 (get_next_version db cid false) stamp,
               uploaded_by := uploader, uploaded_at := now }],
          campaign_specs := db.campaign_specs.map (fun c =>
            if c.id == cid then
              { c with pdf_filename := some (mkSpecFilename camp.name
                  (get_next_version db cid false) stamp) }
            else c) },
        true, true, true, false⟩ := by
  simp [handle_spec_upload, hfind, goodEnv]

theorem expectedCamp_name (camp : Campaign) (stamps : Nat → String) (n : Nat) :
    (expectedCamp camp stamps n).name = camp.name := by
  cases n <;> rfl

/-- Invariant of `n` strictly sequential good uploads starting from a
state with no version rows for the campaign: the campaign's version rows
are exactly the expected rows for uploads `0..n-1`, and the campaign
record is the original with its `pdf_filename` tracking the latest
generated filename. -/
theorem runUploads_state (db : DB) (cid : Nat) (uploader : String)
    (stamps : Nat → String) (ids : Nat → Nat) (times : Nat → Nat)
    (camp : Campaign)
    (hfind : db.campaign_specs.find? (fun c => c.id == cid) = some camp)
    (h0 : db.spec_versions.filter (fun v => v.campaign_id == cid) = []) :
    ∀ n,
      (runUploads cid uploader stamps ids times db n).spec_versions.filter
        (fun v => v.campaign_id == cid) =
        (List.range n).map (expectedRow cid uploader stamps ids times camp.name) ∧
      (runUploads cid uploader stamps ids times db n).campaign_specs.find?
        (fun c => c.id == cid) = some (expectedCamp camp stamps n)
  | 0 => ⟨by simpa [runUploads] using h0, by simpa [runUploads, expectedCamp] using hfind⟩
  | n+1 => by
    obtain ⟨ihA, ihB⟩ :=
      runUploads_state db cid uploader stamps ids times camp hfind h0 n
    have hver : get_next_version
        (runUploads cid uploader stamps ids times db n) cid false = n + 1 := by
      have hv : versionsOf (runUploads cid uploader stamps ids times db n) cid =
          (List.range n).map (fun k => k + 1) := by
        simp only [versionsOf, ihA, List.map_map]
        rfl
      simp [get_next_version, hv, foldr_max_range]
    have hstep := handle_spec_upload_success
      (runUploads cid uploader stamps ids times db n) cid (stamps n) uploader
      (times n) (ids n) (expectedCamp camp stamps n) ihB
    refine ⟨?_, ?_⟩
    · simp only [runUploads, hstep]
      simp only [List.filter_append, ihA, hver, expectedCamp_name,
        List.range_succ, List.map_append]
      simp [expectedRow]
    · simp only [runUploads, hstep]
      have hupd := find?_map_update cid
        (fun c => { c with pdf_filename := some (mkSpecFilename
          (expectedCamp camp stamps n).name
          (get_next_version (runUploads cid uploader stamps ids times db n) cid false)
          (stamps n)) })
        (fun _ => rfl)
        (runUploads cid uploader stamps ids times db n).campaign_specs
        (expectedCamp camp stamps n) ihB
      rw [hupd]
      rw [hver, expectedCamp_name]
      congr 1
      cases n <;> rfl

/-- C1: for every sequence of `N` successful uploads to the same campaign
executed strictly sequentially, every upload reports success, the
campaign's `spec_versions` rows carry version numbers exactly `1..N` with
no gaps or repeats, and after the `N`-th upload the campaign's
`pdf_filename` equals the filename of the version-`N` row. -/
theorem sequential_uploads_versions (db : DB) (cid : Nat) (uploader : String)
    (stamps : Nat → String) (ids : Nat → Nat) (times : Nat → Nat)
    (camp : Campaign)
    (hfind : db.campaign_specs.find? (fun c => c.id == cid) = some camp)
    (h0 : db.spec_versions.filter (fun v => v.campaign_id == cid) = [])
    (N : Nat) :
    (∀ k, k < N → (handle_spec_upload (runUploads cid uploader stamps ids times db k)
        cid (goodEnv (stamps k)) uploader (times k) (ids k)).success = true) ∧
    ((runUploads cid uploader stamps ids times db N).spec_versions.filter
        (fun v => v.campaign_id == cid)).map (fun v => v.version) =
      (List.range N).map (fun k => k + 1) ∧
    (0 < N → ∃ c row,
      (runUploads cid uploader stamps ids times db N).campaign_specs.find?
        (fun x => x.id == cid) = some c ∧
      row ∈ (runUploads cid uploader stamps ids times db N).spec_versions.filter
        (fun v => v.campaign_id == cid) ∧
      row.version = N ∧ c.pdf_filename = some row.filename) := by
  refine ⟨?_, ?_, ?_⟩
  · intro k _
    have hk := (runUploads_state db cid uploader stamps ids times camp hfind h0 k).2
    rw [handle_spec_upload_success
      (runUploads cid uploader stamps ids times db k) cid (stamps k) uploader
      (times k) (ids k) (expectedCamp camp stamps k) hk]
  · rw [(runUploads_state db cid uploader stamps ids times camp hfind h0 N).1,
      List.map_map]
    rfl
  · intro hN
    obtain ⟨m, rfl⟩ : ∃ m, N = m + 1 :=
      ⟨N - 1, (Nat.succ_pred_eq_of_pos hN).symm⟩
    obtain ⟨hA, hB⟩ :=
      runUploads_state db cid uploader stamps ids times camp hfind h0 (m + 1)
    refine ⟨expectedCamp camp stamps (m + 1),
      expectedRow cid uploader stamps ids times camp.name m, hB, ?_, rfl, rfl⟩
    rw [hA]
    exact List.mem_map_of_mem _ (List.mem_range.mpr (Nat.lt_succ_self m))

/-- Witness for C1: two sequential uploads to a fresh campaign produce
versions `[1, 2]` and point `pdf_filename` at the second file. -/
theorem sequential_uploads_versions_witness :
    ((runUploads 1 "u" (fun k => toString k) (fun k => k + 10) (fun k => k)
      { campaign_specs :=
          [{ id := 1, name := "Acme", client := "Acme Corp", status := "Active",
             payment_model := none, cpa := none, pdf_filename := none,
             notes := none, spec_url := none, last_updated := 0 }],
        notes_history := [], spec_versions := [] } 2).spec_versions.filter
        (fun v => v.campaign_id == 1)).map (fun v => v.version) =
      (List.range 2).map (fun k => k + 1) ∧
    (0 < 2 → ∃ c row,
      (runUploads 1 "u" (fun k => toString k) (fun k => k + 10) (fun k => k)
        { campaign_specs :=
            [{ id := 1, name := "Acme", client := "Acme Corp", status := "Active",
               payment_model := none, cpa := none, pdf_filename := none,
               notes := none, spec_url := none, last_updated := 0 }],
          notes_history := [], spec_versions := [] } 2).campaign_specs.find?
        (fun x => x.id == 1) = some c ∧
      row ∈ (runUploads 1 "u" (fun k => toString k) (fun k => k + 10) (fun k => k)
        { campaign_specs :=
            [{ id := 1, name := "Acme", client := "Acme Corp", status := "Active",
               payment_model := none, cpa := none, pdf_filename := none,
               notes := none, spec_url := none, last_updated := 0 }],
          notes_history := [], spec_versions := [] } 2).spec_versions.filter
        (fun v => v.campaign_id == 1) ∧
      row.version = 2 ∧ c.pdf_filename = some row.filename) := by
  have h := sequential_uploads_versions
    { campaign_specs :=
        [{ id := 1, name := "Acme", client := "Acme Corp", status := "Active",
           payment_model := none, cpa := none, pdf_filename := none,
           notes := none, spec_url := none, last_updated := 0 }],
      notes_history := [], spec_versions := [] }
    1 "u" (fun k => toString k) (fun k => k + 10) (fun k => k)
    { id := 1, name := "Acme", client := "Acme Corp", status := "Active",
      payment_model := none, cpa := none, pdf_filename := none,
      notes := none, spec_url := none, last_updated := 0 }
    (by decide) rfl 2
  exact ⟨h.2.1, h.2.2⟩

end CampaignManager
